import Mathlib

/-!
Shallow embedding of the cron-execution-cleaner controller
(package `controller` plus the `v1alpha1` API types).

Modelling conventions:
* Kubernetes `Job` objects are reduced to the fields the controller reads:
  name, owner references, the three lifecycle counters and the optional
  `status.startTime`.
* `time.Time` and `time.Duration` values are integers (nanoseconds); `nil`
  start times are `Option.none`.  Go `int`/`int32` counters are `Int`.
* The in-place `sort.Slice` call of `excessJobs` is modelled with
  `List.insertionSort`, which is exactly the algorithm Go runs on slices
  shorter than 12 elements (and ties keep their input order in both).
* The fallible Kubernetes client is an oracle `delOk : Job → Bool` telling
  whether a given `Delete` call succeeds; the reconcile model records the
  delete calls it issues and the status object it writes back.
-/

namespace CronCleaner

/-- Owner reference of a Job, reduced to the two fields the controller
compares (`owner.Kind` and `owner.Name`). -/
structure OwnerRef where
  kind : String
  name : String
deriving DecidableEq

/-- A Kubernetes Job as seen by the controller: `metadata.name`,
`metadata.ownerReferences`, and the status fields `active`, `succeeded`,
`failed` (counters) and the optional `startTime` (nanoseconds). -/
structure Job where
  name : String
  ownerRefs : List OwnerRef
  active : Int
  succeeded : Int
  failed : Int
  startTime : Option Int
deriving DecidableEq

/-- `spec.retain` of the CronExecutionCleaner custom resource. -/
structure RetentionPolicy where
  successfulJobs : Int
  failedJobs : Int
deriving DecidableEq

/-- `spec.cleanupStuck` of the CronExecutionCleaner custom resource;
`stuckAfter` is a duration in nanoseconds. -/
structure CleanupStuckPolicy where
  enabled : Bool
  stuckAfter : Int
deriving DecidableEq

/-- `spec` of the CronExecutionCleaner custom resource; `runInterval` is a
duration in nanoseconds. -/
structure CleanerSpec where
  targetNamespace : String
  cronJobName : String
  retain : RetentionPolicy
  cleanupStuck : CleanupStuckPolicy
  runInterval : Int
deriving DecidableEq

/-- One nanosecond per unit, so `time.Second` is `10 ^ 9`. -/
def second : Int := 1000000000

/-- The four distinct validation errors produced by `validateSpec`
(each corresponds to one `fmt.Errorf` message in the source). -/
inductive SpecError where
  | runIntervalTooSmall
  | negativeRetainSuccessful
  | negativeRetainFailed
  | stuckAfterTooSmall
deriving DecidableEq

/-- `validateSpec` from the controller: `runInterval` at least one second,
retain counts non-negative, and `stuckAfter` at least one second but only
when `cleanupStuck.enabled` is set.  Returns the first failing check. -/
def validateSpec (spec : CleanerSpec) : Option SpecError :=
  if spec.runInterval < second then
    some SpecError.runIntervalTooSmall
  else if spec.retain.successfulJobs < 0 then
    some SpecError.negativeRetainSuccessful
  else if spec.retain.failedJobs < 0 then
    some SpecError.negativeRetainFailed
  else if spec.cleanupStuck.enabled && decide (spec.cleanupStuck.stuckAfter < second) then
    some SpecError.stuckAfterTooSmall
  else
    none

/-- The comparison closure passed to `sort.Slice` in `excessJobs`:
`less(i, j)` holds when job `i` must sort strictly before job `j`
(descending by start time; a job with no start time never sorts before
another, and any timed job sorts before an untimed one). -/
def jobLess (a b : Job) : Bool :=
  match a.startTime with
  | none => false
  | some ta =>
    match b.startTime with
    | none => true
    | some tb => decide (tb < ta)

/-- The non-strict counterpart of `jobLess`: `a` may stay before `b`
because `b` does not sort strictly before `a`. -/
def jobGE (a b : Job) : Prop := jobLess b a = false

instance : DecidableRel jobGE := fun a b => instDecidableEqBool (jobLess b a) false

/-- The sort performed in place by `excessJobs` via `sort.Slice`:
descending by start time, jobs without a start time last. -/
def sortJobs (jobs : List Job) : List Job := List.insertionSort jobGE jobs

/-- `excessJobs` from the controller: sort descending by start time
(newest first, untimed jobs last) and return everything beyond the first
`retainCount` entries, or the empty list when nothing is in excess. -/
def excessJobs (jobs : List Job) (retainCount : Int) : List Job :=
  let sorted := sortJobs jobs
  if retainCount < (sorted.length : Int) then sorted.drop retainCount.toNat else []

/-- `filterJobsByOwner` from the controller: keep a job iff some owner
reference has kind CronJob and the configured name. -/
def filterJobsByOwner (jobs : List Job) (cronJobName : String) : List Job :=
  jobs.filter fun j =>
    j.ownerRefs.any fun owner => owner.kind == "CronJob" && owner.name == cronJobName

/-- `classifyJobs` from the controller: Go `switch` with cases
`Active > 0`, `Succeeded > 0`, `Failed > 0` in that order; a job matching
no case is appended to no group. -/
def classifyJobs : List Job → List Job × List Job × List Job
  | [] => ([], [], [])
  | j :: rest =>
    let r := classifyJobs rest
    if 0 < j.active then (j :: r.1, r.2.1, r.2.2)
    else if 0 < j.succeeded then (r.1, j :: r.2.1, r.2.2)
    else if 0 < j.failed then (r.1, r.2.1, j :: r.2.2)
    else r

/-- `detectStuckJobs` from the controller: skip jobs with no start time,
flag a job when `now.Sub(startTime) > stuckAfter`. -/
def detectStuckJobs (jobs : List Job) (stuckAfter : Int) (now : Int) : List Job :=
  jobs.filter fun j =>
    match j.startTime with
    | none => false
    | some t => decide (stuckAfter < now - t)

/-- `deleteJobs` from the controller, with the Kubernetes client replaced
by the oracle `delOk`.  The first component is the Go return value
(`deletedCount`, incremented only on successful deletion, a failed call
is logged and the loop continues); the second records the `Delete` calls
issued, in order. -/
def deleteJobs (delOk : Job → Bool) : List Job → Nat × List Job
  | [] => (0, [])
  | j :: rest =>
    let r := deleteJobs delOk rest
    ((if delOk j then r.1 + 1 else r.1), j :: r.2)

/-- Reason recorded in the Ready condition: `InvalidSpec` carries the
validation error (the condition message), `ReconcileSuccess` is the
success reason. -/
inductive CondReason where
  | invalidSpec (e : SpecError)
  | reconcileSuccess
deriving DecidableEq

/-- `status` of the CronExecutionCleaner resource: `lastRunTime`,
cumulative `jobsDeleted` and `podsDeleted`, and the Ready condition
(status flag and reason), `none` while never set. -/
structure CleanerStatus where
  lastRunTime : Option Int
  jobsDeleted : Int
  podsDeleted : Int
  ready : Option (Bool × CondReason)
deriving DecidableEq

/-- Observable outcome of one `Reconcile` invocation: the status object
written back, the `RequeueAfter` of the returned `ctrl.Result`
(nanoseconds, `0` meaning no requeue), every Job `Delete` call issued in
order, and whether the Job listing was performed. -/
structure ReconcileOutcome where
  status : CleanerStatus
  requeueAfter : Int
  deleteCalls : List Job
  didList : Bool
deriving DecidableEq

/-- `Reconcile` from `internal/controller/cronexecutioncleaner_controller.go`,
after the CronExecutionCleaner object has been fetched: validation gate,
Job listing (contents given by `jobs`), ownership filter, classification,
and — only inside the `cleanupStuck.Enabled` branch — stuck detection and
deletion, retention for the succeeded and failed groups, and the
conditional status-counter update; finally the Ready condition is set and
the result requeues after `runInterval`.  Status writes are modelled as
succeeding. -/
def reconcile (spec : CleanerSpec) (st : CleanerStatus) (jobs : List Job)
    (now : Int) (delOk : Job → Bool) : ReconcileOutcome :=
  match validateSpec spec with
  | some e =>
    { status := { st with ready := some (false, CondReason.invalidSpec e) }
      requeueAfter := 0
      deleteCalls := []
      didList := false }
  | none =>
    let owned := filterJobsByOwner jobs spec.cronJobName
    let groups := classifyJobs owned
    if spec.cleanupStuck.enabled then
      let stuckJobs := detectStuckJobs groups.1 spec.cleanupStuck.stuckAfter now
      let dStuck := deleteJobs delOk stuckJobs
      let excessSucceeded := excessJobs groups.2.1 spec.retain.successfulJobs
      let dSucc := deleteJobs delOk excessSucceeded
      let excessFailed := excessJobs groups.2.2 spec.retain.failedJobs
      let dFail := deleteJobs delOk excessFailed
      let total : Int := (dStuck.1 : Int) + (dSucc.1 : Int) + (dFail.1 : Int)
      let st1 :=
        if 0 < total then
          { st with
            lastRunTime := some now
            jobsDeleted := st.jobsDeleted + total
            podsDeleted := st.podsDeleted + total }
        else st
      { status := { st1 with ready := some (true, CondReason.reconcileSuccess) }
        requeueAfter := spec.runInterval
        deleteCalls := dStuck.2 ++ dSucc.2 ++ dFail.2
        didList := true }
    else
      { status := { st with ready := some (true, CondReason.reconcileSuccess) }
        requeueAfter := spec.runInterval
        deleteCalls := []
        didList := true }

/-!  Supporting lemmas. -/

/-- The sort key realised by the comparator of `excessJobs`: the start
time, with a missing start time treated as minus infinity. -/
def key (j : Job) : WithBot ℤ :=
  match j.startTime with
  | none => ⊥
  | some t => (t : WithBot ℤ)

theorem jobLess_iff (a b : Job) : jobLess a b = true ↔ key b < key a := by
  cases ha : a.startTime <;> cases hb : b.startTime <;>
    simp [jobLess, key, ha, hb, WithBot.bot_lt_coe, WithBot.coe_lt_coe, not_lt_bot]

theorem jobGE_iff (a b : Job) : jobGE a b ↔ key b ≤ key a := by
  rw [jobGE, ← not_lt]
  constructor
  · intro h hlt
    exact absurd ((jobLess_iff b a).mpr hlt) (by simp [h])
  · intro h
    cases hq : jobLess b a
    · rfl
    · exact absurd ((jobLess_iff b a).mp hq) h

instance : IsTrans Job jobGE :=
  ⟨fun a b c hab hbc =>
    (jobGE_iff a c).mpr (le_trans ((jobGE_iff b c).mp hbc) ((jobGE_iff a b).mp hab))⟩

instance : IsTotal Job jobGE :=
  ⟨fun a b => by
    rcases le_total (key a) (key b) with h | h
    · exact Or.inr ((jobGE_iff b a).mpr h)
    · exact Or.inl ((jobGE_iff a b).mpr h)⟩

theorem sortJobs_perm (l : List Job) : (sortJobs l).Perm l :=
  List.perm_insertionSort jobGE l

theorem sortJobs_sorted (l : List Job) : List.Sorted jobGE (sortJobs l) :=
  List.sorted_insertionSort jobGE l

theorem deleteJobs_calls (delOk : Job → Bool) (l : List Job) :
    (deleteJobs delOk l).2 = l := by
  induction l with
  | nil => rfl
  | cons j rest ih => simp [deleteJobs, ih]

theorem deleteJobs_count (delOk : Job → Bool) (l : List Job) :
    (deleteJobs delOk l).1 = l.countP delOk := by
  induction l with
  | nil => rfl
  | cons j rest ih =>
    by_cases h : delOk j = true <;>
      simp [deleteJobs, List.countP_cons, h, ih]

theorem classifyJobs_eq (l : List Job) :
    classifyJobs l =
      (l.filter fun j => decide (0 < j.active),
       l.filter fun j => !decide (0 < j.active) && decide (0 < j.succeeded),
       l.filter fun j =>
         !decide (0 < j.active) && !decide (0 < j.succeeded) && decide (0 < j.failed)) := by
  induction l with
  | nil => rfl
  | cons j rest ih =>
    by_cases h1 : 0 < j.active <;> by_cases h2 : 0 < j.succeeded <;>
      by_cases h3 : 0 < j.failed <;>
        simp [classifyJobs, ih, List.filter_cons, h1, h2, h3]

/-- Zeta-reduced form of `excessJobs`. -/
theorem excessJobs_eq (jobs : List Job) (r : Int) :
    excessJobs jobs r =
      if r < ((sortJobs jobs).length : Int) then (sortJobs jobs).drop r.toNat else [] := rfl

/-- The stuck set computed by a reconcile cycle: stuck detection applied
to the Active group of the owned jobs. -/
def stuckOf (spec : CleanerSpec) (jobs : List Job) (now : Int) : List Job :=
  detectStuckJobs (classifyJobs (filterJobsByOwner jobs spec.cronJobName)).1
    spec.cleanupStuck.stuckAfter now

/-- The excess of the Succeeded group under the configured retain count. -/
def excessSucceededOf (spec : CleanerSpec) (jobs : List Job) : List Job :=
  excessJobs (classifyJobs (filterJobsByOwner jobs spec.cronJobName)).2.1
    spec.retain.successfulJobs

/-- The excess of the Failed group under the configured retain count. -/
def excessFailedOf (spec : CleanerSpec) (jobs : List Job) : List Job :=
  excessJobs (classifyJobs (filterJobsByOwner jobs spec.cronJobName)).2.2
    spec.retain.failedJobs

/-- Count of successful deletions in one reconcile outcome: the delete
calls whose oracle answer is success. -/
def totalDeleted (delOk : Job → Bool) (out : ReconcileOutcome) : Int :=
  (out.deleteCalls.countP delOk : Int)

/-- On a valid policy with stuck-cleanup enabled, one reconcile cycle
issues the stuck, excess-succeeded and excess-failed deletions in that
order and updates the counters iff the successful total is positive. -/
theorem reconcile_enabled_eq (spec : CleanerSpec) (st : CleanerStatus) (jobs : List Job)
    (now : Int) (delOk : Job → Bool)
    (hv : validateSpec spec = none) (he : spec.cleanupStuck.enabled = true) :
    reconcile spec st jobs now delOk =
      { status :=
          { (if 0 < ((stuckOf spec jobs now).countP delOk : Int)
               + ((excessSucceededOf spec jobs).countP delOk : Int)
               + ((excessFailedOf spec jobs).countP delOk : Int) then
              { st with
                lastRunTime := some now
                jobsDeleted := st.jobsDeleted
                  + (((stuckOf spec jobs now).countP delOk : Int)
                    + ((excessSucceededOf spec jobs).countP delOk : Int)
                    + ((excessFailedOf spec jobs).countP delOk : Int))
                podsDeleted := st.podsDeleted
                  + (((stuckOf spec jobs now).countP delOk : Int)
                    + ((excessSucceededOf spec jobs).countP delOk : Int)
                    + ((excessFailedOf spec jobs).countP delOk : Int)) }
            else st) with ready := some (true, CondReason.reconcileSuccess) }
        requeueAfter := spec.runInterval
        deleteCalls := stuckOf spec jobs now ++ excessSucceededOf spec jobs
          ++ excessFailedOf spec jobs
        didList := true } := by
  simp [reconcile, hv, he, stuckOf, excessSucceededOf, excessFailedOf,
    deleteJobs_calls, deleteJobs_count]

/-!  Concrete fixtures used by witnesses and counterexamples. -/

/-- Succeeded job named a, start time 100. -/
def ja : Job :=
  { name := "a", ownerRefs := [], active := 0, succeeded := 1, failed := 0, startTime := some 100 }

/-- Succeeded job named b with the same start time as `ja`. -/
def jb : Job :=
  { name := "b", ownerRefs := [], active := 0, succeeded := 1, failed := 0, startTime := some 100 }

/-- Older succeeded job (start time 100). -/
def jOld : Job :=
  { name := "old", ownerRefs := [], active := 0, succeeded := 1, failed := 0, startTime := some 100 }

/-- Newer succeeded job (start time 200). -/
def jNew : Job :=
  { name := "new", ownerRefs := [], active := 0, succeeded := 1, failed := 0, startTime := some 200 }

/-- Succeeded job with no recorded start time. -/
def jNil : Job :=
  { name := "untimed", ownerRefs := [], active := 0, succeeded := 1, failed := 0, startTime := none }

/-- Active job with no recorded start time. -/
def jNilActive : Job :=
  { name := "untimed-active", ownerRefs := [], active := 1, succeeded := 0, failed := 0,
    startTime := none }

/-- Active job started at time 0. -/
def jStuckActive : Job :=
  { name := "started-at-zero", ownerRefs := [], active := 1, succeeded := 0, failed := 0,
    startTime := some 0 }

/-- Job simultaneously reporting active and terminal counters. -/
def jActiveBoth : Job :=
  { name := "active-and-done", ownerRefs := [], active := 2, succeeded := 3, failed := 4,
    startTime := some 7 }

/-- Owner reference pointing at the CronJob named cj. -/
def cjOwner : OwnerRef := { kind := "CronJob", name := "cj" }

/-- Succeeded job owned by the CronJob named cj. -/
def sJob : Job :=
  { name := "s1", ownerRefs := [cjOwner], active := 0, succeeded := 1, failed := 0,
    startTime := some 50 }

/-- Valid policy with stuck-cleanup disabled and retain counts zero. -/
def specOff : CleanerSpec :=
  { targetNamespace := "ns", cronJobName := "cj"
    retain := { successfulJobs := 0, failedJobs := 0 }
    cleanupStuck := { enabled := false, stuckAfter := 3600 * second }
    runInterval := second }

/-- Invalid policy: `runInterval` of half a second. -/
def specBad : CleanerSpec :=
  { targetNamespace := "ns", cronJobName := "cj"
    retain := { successfulJobs := 0, failedJobs := 0 }
    cleanupStuck := { enabled := false, stuckAfter := 3600 * second }
    runInterval := second / 2 }

/-- Valid policy with stuck-cleanup enabled and retain counts zero. -/
def specOn : CleanerSpec :=
  { targetNamespace := "ns", cronJobName := "cj"
    retain := { successfulJobs := 0, failedJobs := 0 }
    cleanupStuck := { enabled := true, stuckAfter := 3600 * second }
    runInterval := second }

/-- Policy with stuck-cleanup disabled and a negative `stuckAfter`. -/
def specNegStuck : CleanerSpec :=
  { targetNamespace := "ns", cronJobName := "cj"
    retain := { successfulJobs := 0, failedJobs := 0 }
    cleanupStuck := { enabled := false, stuckAfter := -5 }
    runInterval := second }

/-- Empty initial status. -/
def st0 : CleanerStatus :=
  { lastRunTime := none, jobsDeleted := 0, podsDeleted := 0, ready := none }

/-- Deletion oracle that always succeeds. -/
def okAll : Job → Bool := fun _ => true

/-- Deletion oracle under which only the job named b succeeds (deleting
`ja` fails). -/
def failA : Job → Bool := fun j => j.name == "b"

/-- Deletion oracle under which only the job named a succeeds (deleting
`jb` fails). -/
def failB : Job → Bool := fun j => j.name == "a"

/-!  Claim theorems. -/

/-- Claim C2, counterexample: `ja` and `jb` have identical start times and
differ only in name, yet the excess set computed with retain 1 depends on
the order in which the group lists them, so no secondary tie-break
(execution name or otherwise) decides the order of tied executions. -/
theorem c2_counterexample_tied_jobs_excess_depends_on_order :
    ja.startTime = jb.startTime ∧ ja ≠ jb ∧
    excessJobs [ja, jb] 1 = [jb] ∧ excessJobs [jb, ja] 1 = [ja] := by
  decide

/-- Claim C2 as amended: the retention comparator applies no secondary
tie-break at all — two executions are mutually unordered by the comparator
(both directions `false`) exactly when their start-time keys coincide,
including the case of two missing start times; hence the excess selected
from a group of tied executions depends on the presentation order of the
input, not on any stable secondary key. -/
theorem c2_comparator_has_no_tiebreak (a b : Job) :
    (jobLess a b = false ∧ jobLess b a = false) ↔ key a = key b := by
  constructor
  · rintro ⟨h1, h2⟩
    have hba : ¬ key b < key a := fun hlt => by
      have := (jobLess_iff a b).mpr hlt
      rw [h1] at this
      exact Bool.false_ne_true this
    have hab : ¬ key a < key b := fun hlt => by
      have := (jobLess_iff b a).mpr hlt
      rw [h2] at this
      exact Bool.false_ne_true this
    exact le_antisymm (not_lt.mp hba) (not_lt.mp hab)
  · intro h
    constructor
    · cases hq : jobLess a b
      · rfl
      · exact absurd ((jobLess_iff a b).mp hq) (by rw [h]; exact lt_irrefl _)
    · cases hq : jobLess b a
      · rfl
      · exact absurd ((jobLess_iff b a).mp hq) (by rw [h]; exact lt_irrefl _)

/-- Claim C4, counterexample: with retain 0 the excess of
`[jOld, jNew]` is returned newest-first, `[jNew, jOld]`, so the excess
list is not ordered oldest-first (the strictly newer `jNew` precedes
`jOld`). -/
theorem c4_counterexample_excess_not_oldest_first :
    excessJobs [jOld, jNew] 0 = [jNew, jOld] ∧ jobLess jNew jOld = true ∧
    ¬ (excessJobs [jOld, jNew] 0).Pairwise (fun a b => jobLess a b = false) := by
  decide

/-- Claim C4 as amended: the excess subset returned by the retention
evaluator is ordered newest-first — no excess execution is strictly newer
than any excess execution preceding it in the returned list (executions
with equal start times are mutually unordered). -/
theorem c4_excess_newest_first (jobs : List Job) (retain : Int) :
    (excessJobs jobs retain).Pairwise (fun a b => jobLess b a = false) := by
  have hs : (sortJobs jobs).Pairwise jobGE := sortJobs_sorted jobs
  unfold excessJobs
  by_cases h : retain < ((sortJobs jobs).length : Int)
  · rw [if_pos h]
    exact List.Pairwise.sublist (List.drop_sublist retain.toNat (sortJobs jobs)) hs
  · rw [if_neg h]
    exact List.Pairwise.nil

/-- Claim C8, counterexample: two deletion-failure patterns that fail on
different executions (`failA` fails on `ja`, `failB` fails on `jb`)
produce identical executor results on the batch `[ja, jb]`, so the value
returned by `deleteJobs` cannot contain the list of (execution, error)
failures — the executor returns only the successful-deletion count (and
issues the same delete calls). -/
theorem c8_counterexample_no_failure_list_returned :
    deleteJobs failA [ja, jb] = deleteJobs failB [ja, jb] ∧ failA ja ≠ failB ja := by
  decide

/-- Claim C8 as amended: a per-item deletion failure does not abort the
batch — the executor issues exactly one delete call per batch entry, in
batch order and regardless of earlier failures, and returns only the count
of successful deletions (per-item failures are logged, not returned). -/
theorem c8_delete_continues_and_returns_count (delOk : Job → Bool) (jobs : List Job) :
    (deleteJobs delOk jobs).2 = jobs ∧ (deleteJobs delOk jobs).1 = jobs.countP delOk :=
  ⟨deleteJobs_calls delOk jobs, deleteJobs_count delOk jobs⟩

/-- Claim C10: when `cleanupStuck.enabled` is false, `validateSpec` never
examines `stuckAfter` — any policy with `runInterval` of at least one
second and non-negative retain counts is accepted, whatever the value of
`stuckAfter` (zero or negative included). -/
theorem c10_validate_ignores_stuckAfter_when_disabled (spec : CleanerSpec)
    (h1 : second ≤ spec.runInterval) (h2 : 0 ≤ spec.retain.successfulJobs)
    (h3 : 0 ≤ spec.retain.failedJobs) (h4 : spec.cleanupStuck.enabled = false) :
    validateSpec spec = none := by
  unfold validateSpec
  rw [if_neg (not_lt.mpr h1), if_neg (not_lt.mpr h2), if_neg (not_lt.mpr h3)]
  simp [h4]

/-- Witness for claim C10 at a concrete policy whose `stuckAfter` is the
negative duration -5 while stuck-cleanup is disabled. -/
theorem c10_validate_witness : validateSpec specNegStuck = none :=
  c10_validate_ignores_stuckAfter_when_disabled specNegStuck (by decide) (by decide)
    (by decide) rfl

/-- Claim C1, failing input: a valid policy with stuck-cleanup disabled
and `retain.successfulJobs = 0`, and a listing holding one succeeded job
owned by the target CronJob.  The retention evaluator would select that
job as excess (`excessJobs [sJob] 0 = [sJob]`), yet the reconcile cycle
issues no delete call at all, because the whole retention block is nested
inside the `cleanupStuck.Enabled` branch — contradicting the claim (and
the repository README) that retention is evaluated independently of
stuck-cleanup. -/
theorem c1_stuck_disabled_also_disables_retention :
    validateSpec specOff = none ∧
    specOff.cleanupStuck.enabled = false ∧
    classifyJobs (filterJobsByOwner [sJob] specOff.cronJobName) = ([], [sJob], []) ∧
    excessJobs [sJob] specOff.retain.successfulJobs = [sJob] ∧
    (reconcile specOff st0 [sJob] 1000 okAll).deleteCalls = [] ∧
    (reconcile specOff st0 [sJob] 1000 okAll).status.jobsDeleted = 0 := by
  decide

/-- Claim C5, counterexample: on the invalid policy `specBad`
(`runInterval` of half a second) the reconcile cycle returns a result
with `RequeueAfter = 0`, i.e. no requeue is scheduled — refuting the
claim that a validation failure still yields a bounded, never-zero
requeue delay. -/
theorem c5_counterexample_invalid_spec_returns_zero_requeue :
    validateSpec specBad = some SpecError.runIntervalTooSmall ∧
    (reconcile specBad st0 [sJob] 1000 okAll).requeueAfter = 0 := by
  decide

/-- Claim C5 as amended: when validation of the policy spec fails, the
cycle sets the Ready condition to False with the invalid-spec reason
carrying the validation error, performs no listing and issues zero
deletions, writes the status back with the cumulative counters and
`lastRunTime` untouched — and returns an empty result whose requeue delay
is zero (no requeue is scheduled; re-evaluation relies on watch events
for the policy object). -/
theorem c5_invalid_spec_short_circuits (spec : CleanerSpec) (st : CleanerStatus)
    (jobs : List Job) (now : Int) (delOk : Job → Bool) (e : SpecError)
    (h : validateSpec spec = some e) :
    reconcile spec st jobs now delOk =
      { status := { st with ready := some (false, CondReason.invalidSpec e) }
        requeueAfter := 0
        deleteCalls := []
        didList := false } := by
  unfold reconcile
  rw [h]

/-- Witness for claim C5 at the concrete invalid policy `specBad`. -/
theorem c5_invalid_spec_witness :
    reconcile specBad st0 [sJob] 1000 okAll =
      { status := { st0 with ready := some (false, CondReason.invalidSpec
          SpecError.runIntervalTooSmall) }
        requeueAfter := 0
        deleteCalls := []
        didList := false } :=
  c5_invalid_spec_short_circuits specBad st0 [sJob] 1000 okAll
    SpecError.runIntervalTooSmall (by decide)

/-- Claim C6: the classifier realises the fixed priority order — the
Active group is exactly the owned jobs with positive active count, the
Succeeded group exactly those with no active but positive succeeded
count, the Failed group exactly those with neither but positive failed
count; a job with positive active count is classified Active regardless
of its other counters, and a job with no positive counter appears in none
of the three groups. -/
theorem c6_classifier_priority_order (jobs : List Job) :
    classifyJobs jobs =
      (jobs.filter fun j => decide (0 < j.active),
       jobs.filter fun j => !decide (0 < j.active) && decide (0 < j.succeeded),
       jobs.filter fun j =>
         !decide (0 < j.active) && !decide (0 < j.succeeded) && decide (0 < j.failed)) ∧
    (∀ j ∈ jobs, 0 < j.active → j ∈ (classifyJobs jobs).1) ∧
    (∀ j ∈ jobs, j.active ≤ 0 → j.succeeded ≤ 0 → j.failed ≤ 0 →
      j ∉ (classifyJobs jobs).1 ∧ j ∉ (classifyJobs jobs).2.1 ∧
        j ∉ (classifyJobs jobs).2.2) := by
  refine ⟨classifyJobs_eq jobs, ?_, ?_⟩
  · intro j hj hact
    rw [classifyJobs_eq jobs]
    exact List.mem_filter.mpr ⟨hj, by simpa using hact⟩
  · intro j hj h1 h2 h3
    rw [classifyJobs_eq jobs]
    refine ⟨fun hmem => ?_, fun hmem => ?_, fun hmem => ?_⟩
    · have := (List.mem_filter.mp hmem).2
      simp only [decide_eq_true_eq] at this
      exact absurd this (not_lt.mpr h1)
    · have := (List.mem_filter.mp hmem).2
      simp only [Bool.and_eq_true, decide_eq_true_eq] at this
      exact absurd this.2 (not_lt.mpr h2)
    · have := (List.mem_filter.mp hmem).2
      simp only [Bool.and_eq_true, decide_eq_true_eq] at this
      exact absurd this.2 (not_lt.mpr h3)

/-- Witness for claim C6: `jActiveBoth` reports active, succeeded and
failed counters all positive and is classified Active. -/
theorem c6_classifier_witness : jActiveBoth ∈ (classifyJobs [jActiveBoth]).1 :=
  (c6_classifier_priority_order [jActiveBoth]).2.1 jActiveBoth (by decide) (by decide)

/-- Claim C7: the stuck detector flags a job iff it belongs to the given
group, has a recorded start time, and has been running strictly longer
than the threshold (`now - startTime > threshold`); a job without a
recorded start time is never flagged, for any threshold. -/
theorem c7_stuck_detection (jobs : List Job) (threshold now : Int) (j : Job) :
    (j ∈ detectStuckJobs jobs threshold now ↔
      j ∈ jobs ∧ ∃ t, j.startTime = some t ∧ threshold < now - t) ∧
    (j.startTime = none → j ∉ detectStuckJobs jobs threshold now) := by
  have hmem : j ∈ detectStuckJobs jobs threshold now ↔
      j ∈ jobs ∧ ∃ t, j.startTime = some t ∧ threshold < now - t := by
    unfold detectStuckJobs
    rw [List.mem_filter]
    constructor
    · rintro ⟨hj, hp⟩
      refine ⟨hj, ?_⟩
      cases hv : j.startTime with
      | none => rw [hv] at hp; exact absurd hp (by simp)
      | some t =>
        rw [hv] at hp
        exact ⟨t, rfl, by simpa using hp⟩
    · rintro ⟨hj, t, hv, hlt⟩
      exact ⟨hj, by rw [hv]; simpa using hlt⟩
  refine ⟨hmem, fun hnone hin => ?_⟩
  rcases (hmem.mp hin).2 with ⟨t, hv, _⟩
  rw [hnone] at hv
  exact Option.noConfusion hv

/-- Witness for claim C7: started at time 0 with a one-hour threshold,
`jStuckActive` is flagged at now = two hours, and the untimed
`jNilActive` is never flagged. -/
theorem c7_stuck_detection_witness :
    jStuckActive ∈ detectStuckJobs [jStuckActive] (3600 * second) (7200 * second) ∧
    jNilActive ∉ detectStuckJobs [jNilActive] (3600 * second) (7200 * second) :=
  ⟨(c7_stuck_detection [jStuckActive] (3600 * second) (7200 * second) jStuckActive).1.mpr
      ⟨by decide, 0, rfl, by decide⟩,
    (c7_stuck_detection [jNilActive] (3600 * second) (7200 * second) jNilActive).2 rfl⟩

/-- Claim C3: for a non-negative retain count, the excess set is empty
when the group does not exceed the retain count; otherwise the excess is
exactly the tail of the descending-by-start-time sort beyond the first
`retain` entries — it has size `total - retain`, together with the kept
prefix it is a permutation of the group, no excess execution is strictly
newer than any kept execution, and whenever a timestamped execution is in
excess every execution with an absent start time is in excess too (an
untimed execution enters the excess before any timestamped one). -/
theorem c3_excess_exact (jobs : List Job) (retain : Int) (h0 : 0 ≤ retain) :
    ((jobs.length : Int) ≤ retain → excessJobs jobs retain = []) ∧
    (retain < (jobs.length : Int) →
      ((excessJobs jobs retain).length : Int) = (jobs.length : Int) - retain ∧
      ((sortJobs jobs).take retain.toNat ++ excessJobs jobs retain).Perm jobs ∧
      (∀ a ∈ (sortJobs jobs).take retain.toNat, ∀ b ∈ excessJobs jobs retain,
        jobLess b a = false) ∧
      (∀ b ∈ excessJobs jobs retain, b.startTime ≠ none →
        ∀ j ∈ jobs, j.startTime = none → j ∈ excessJobs jobs retain)) := by
  have hlen : (sortJobs jobs).length = jobs.length := (sortJobs_perm jobs).length_eq
  constructor
  · intro hle
    rw [excessJobs_eq, if_neg]
    rw [hlen]
    exact not_lt.mpr hle
  · intro hlt
    have hcond : retain < ((sortJobs jobs).length : Int) := by rw [hlen]; exact hlt
    have hex : excessJobs jobs retain = (sortJobs jobs).drop retain.toNat := by
      rw [excessJobs_eq, if_pos hcond]
    have htd : (sortJobs jobs).take retain.toNat ++ (sortJobs jobs).drop retain.toNat
        = sortJobs jobs := List.take_append_drop _ _
    have hpw : ∀ a ∈ (sortJobs jobs).take retain.toNat,
        ∀ b ∈ (sortJobs jobs).drop retain.toNat, jobGE a b := by
      have hs : List.Pairwise jobGE ((sortJobs jobs).take retain.toNat
          ++ (sortJobs jobs).drop retain.toNat) := by
        rw [htd]
        exact sortJobs_sorted jobs
      exact (List.pairwise_append.mp hs).2.2
    refine ⟨?_, ?_, ?_, ?_⟩
    · rw [hex, List.length_drop]
      omega
    · rw [hex, htd]
      exact sortJobs_perm jobs
    · intro a ha b hb
      exact hpw a ha b (hex ▸ hb)
    · intro b hb hbne j hj hjnone
      have hjs : j ∈ sortJobs jobs := (sortJobs_perm jobs).mem_iff.mpr hj
      rw [← htd] at hjs
      rcases List.mem_append.mp hjs with hjt | hjd
      · exfalso
        have hge : jobGE j b := hpw j hjt b (hex ▸ hb)
        rcases hv : b.startTime with _ | tb
        · exact hbne hv
        · have hjb : jobLess b j = true := by simp [jobLess, hv, hjnone]
          rw [jobGE, hjb] at hge
          exact Bool.noConfusion hge
      · rw [hex]
        exact hjd

/-- Witness for claim C3 on the concrete group `[jNew, jNil, jOld]` with
retain 1: the excess has size two and contains the untimed `jNil`. -/
theorem c3_excess_witness :
    ((excessJobs [jNew, jNil, jOld] 1).length : Int)
      = (([jNew, jNil, jOld] : List Job).length : Int) - 1 ∧
    jNil ∈ excessJobs [jNew, jNil, jOld] 1 := by
  have h := (c3_excess_exact [jNew, jNil, jOld] 1 (by decide)).2 (by decide)
  exact ⟨h.1, h.2.2.2 jOld (by decide) (by decide) jNil (by decide) rfl⟩

/-- Claim C9: in every reconcile cycle, if the count of successful
deletions across the stuck, excess-succeeded and excess-failed categories
is at least one, then the written status has `lastRunTime` set to the
current time and `jobsDeleted`/`podsDeleted` each incremented by exactly
that total; if the cycle deleted nothing, all three fields are left
unchanged. -/
theorem c9_status_aggregation (spec : CleanerSpec) (st : CleanerStatus) (jobs : List Job)
    (now : Int) (delOk : Job → Bool) :
    (0 < totalDeleted delOk (reconcile spec st jobs now delOk) →
      (reconcile spec st jobs now delOk).status.lastRunTime = some now ∧
      (reconcile spec st jobs now delOk).status.jobsDeleted =
        st.jobsDeleted + totalDeleted delOk (reconcile spec st jobs now delOk) ∧
      (reconcile spec st jobs now delOk).status.podsDeleted =
        st.podsDeleted + totalDeleted delOk (reconcile spec st jobs now delOk)) ∧
    (totalDeleted delOk (reconcile spec st jobs now delOk) = 0 →
      (reconcile spec st jobs now delOk).status.lastRunTime = st.lastRunTime ∧
      (reconcile spec st jobs now delOk).status.jobsDeleted = st.jobsDeleted ∧
      (reconcile spec st jobs now delOk).status.podsDeleted = st.podsDeleted) := by
  cases hv : validateSpec spec with
  | some e => simp [reconcile, hv, totalDeleted]
  | none =>
    cases he : spec.cleanupStuck.enabled with
    | false => simp [reconcile, hv, he, totalDeleted]
    | true =>
      rw [reconcile_enabled_eq spec st jobs now delOk hv he]
      simp only [totalDeleted, List.countP_append]
      push_cast
      by_cases ht : 0 < ((stuckOf spec jobs now).countP delOk : Int)
          + ((excessSucceededOf spec jobs).countP delOk : Int)
          + ((excessFailedOf spec jobs).countP delOk : Int)
      · rw [if_pos ht]
        constructor
        · intro _
          refine ⟨rfl, ?_, ?_⟩ <;> push_cast <;> ring
        · intro hz
          omega
      · rw [if_neg ht]
        constructor
        · intro hpos
          exfalso
          omega
        · intro _
          exact ⟨rfl, rfl, rfl⟩

/-- Witness for claim C9: on the enabled policy `specOn` with one owned
succeeded job and retain 0, the cycle deletes one job and the status is
advanced accordingly. -/
theorem c9_status_witness :
    (reconcile specOn st0 [sJob] 1000 okAll).status.lastRunTime = some 1000 ∧
    (reconcile specOn st0 [sJob] 1000 okAll).status.jobsDeleted =
      st0.jobsDeleted + totalDeleted okAll (reconcile specOn st0 [sJob] 1000 okAll) ∧
    (reconcile specOn st0 [sJob] 1000 okAll).status.podsDeleted =
      st0.podsDeleted + totalDeleted okAll (reconcile specOn st0 [sJob] 1000 okAll) :=
  (c9_status_aggregation specOn st0 [sJob] 1000 okAll).1 (by decide)

end CronCleaner
